import Mathlib

/-!
# Verification of the RateCaster backend event-ingestion and progression core

Shallow embedding of `src/backend-service.ts` (and the types it uses from
`src/types.ts`).  JavaScript numbers that carry star ratings, averages and
point balances are modelled as rationals (`ℚ`) or integers; timestamps
(`Date.now()` milliseconds) are naturals and are passed explicitly as a
`now` parameter.  The JavaScript objects `reviewsByDappStore`,
`userProfilesDB` and `userTaskProgressStore` (string-keyed records) are
modelled as association lists in insertion order; the SQLite table
`etherscan_reviews` is modelled as a list of rows with `txHash` as the
primary key.
-/

set_option linter.unusedVariables false
set_option linter.unnecessarySeqFocus false

/-! ## Association-list primitives modelling JS `Record<string, T>` objects -/

/-- Lookup in an insertion-ordered association list (JS `obj[k]`). -/
def alistGet {α : Type} (k : String) : List (String × α) → Option α
  | [] => none
  | (k2, v) :: rest => if k2 = k then some v else alistGet k rest

/-- `obj[k] = v`: replace the binding in place, or append a new binding. -/
def alistSet {α : Type} (k : String) (v : α) : List (String × α) → List (String × α)
  | [] => [(k, v)]
  | (k2, v2) :: rest => if k2 = k then (k2, v) :: rest else (k2, v2) :: alistSet k v rest

/-- `obj[k].push(v)` creating `obj[k] = []` first when absent. -/
def alistAppend {α : Type} (k : String) (v : α) : List (String × List α) → List (String × List α)
  | [] => [(k, [v])]
  | (k2, vs) :: rest => if k2 = k then (k2, vs ++ [v]) :: rest else (k2, vs) :: alistAppend k v rest

/-- `obj[k].unshift(v)` creating `obj[k] = []` first when absent. -/
def alistUnshift {α : Type} (k : String) (v : α) : List (String × List α) → List (String × List α)
  | [] => [(k, [v])]
  | (k2, vs) :: rest => if k2 = k then (k2, v :: vs) :: rest else (k2, vs) :: alistUnshift k v rest

/-! ## String helpers modelling JS string methods -/

/-- Models `s.toLowerCase()` (character-wise lowering; the keys in the
source are hex addresses and ids, for which this is exact). -/
def toLowerStr (s : String) : String := String.mk (s.data.map Char.toLower)

/-- Models `s.trim().length > 0`: true iff some character of `s` is not
whitespace (`trim` removes exactly the leading and trailing whitespace). -/
def trimmedNonempty (s : String) : Bool := s.data.any (fun c => !c.isWhitespace)

/-! ## Data model (src/types.ts) -/

/-- `DappReview` from src/types.ts.  The optional `timestamp` is a number;
`0` models both an absent and a zero timestamp (both are falsy in the
source's `if (!serializedSDKReview.timestamp)` check).  `dappName` is
optional in TypeScript; absent is modelled as `""` (it is always assigned
before use by the backend). -/
structure DappReview where
  id : String
  attestationId : String
  dappId : String
  starRating : ℚ
  rater : String
  reviewText : String
  dappName : String
  timestamp : ℕ
deriving DecidableEq, Repr

/-- Shell of a dApp as returned by the SDK (`DappRegistered` without aggregates). -/
structure SDKDappRegistered where
  dappId : String
  name : String
  description : String
  url : String
  category : Option String
  owner : String
deriving DecidableEq, Repr

/-- `DappRegistered` from src/types.ts as held in `dappsStore`:
the SDK shell plus the locally computed aggregates. -/
structure FrontendDappRegistered where
  dappId : String
  name : String
  description : String
  url : String
  category : Option String
  owner : String
  totalReviews : ℕ
  averageRating : ℚ
deriving DecidableEq, Repr

instance : Inhabited FrontendDappRegistered :=
  ⟨⟨"", "", "", "", none, "", 0, 0⟩⟩

/-- `UserProfile` from src/types.ts (the fields the backend mutates). -/
structure UserProfile where
  address : String
  points : ℤ
  reviewStreak : ℕ
  lastLoginTimestamp : ℕ
  lastReviewTimestamp : ℕ
deriving DecidableEq, Repr

inductive TaskType where
  | DAILY_LOGIN
  | DAILY_RATE_ANY_DAPP
  | DAILY_REVIEW_ANY_DAPP
deriving DecidableEq, Repr

inductive TaskCadence where
  | DAILY
  | WEEKLY
  | ONCE
deriving DecidableEq, Repr

/-- `TaskDefinition` from src/types.ts (`type` is spelled `ttype`, as Lean
reserves dot-notation conflicts for that field name in some positions). -/
structure TaskDefinition where
  taskId : String
  title : String
  ttype : TaskType
  cadence : TaskCadence
  pointsReward : ℤ
  targetCount : ℕ
  isActive : Bool
deriving DecidableEq, Repr

/-- `UserTaskProgressEntry` from src/types.ts. -/
structure UserTaskProgressEntry where
  taskId : String
  currentCount : ℕ
  lastProgressTimestamp : ℕ
  isCompletedThisPeriod : Bool
deriving DecidableEq, Repr

/-- A row of the SQLite table `etherscan_reviews` (`txHash` is the primary key). -/
structure ReviewRow where
  dappId : String
  txHash : String
  fromAddress : String
  starRating : ℚ
  reviewText : String
  blockNumber : ℕ
deriving DecidableEq, Repr

/-- The in-memory global stores of backend-service.ts (the "cache"):
`dappsStore`, `reviewsByDappStore`, `allReviewsStore`,
`taskDefinitionsStore`, `userProfilesDB`, `userTaskProgressStore`.
The SQLite review table is a separate durable store and is threaded
separately (see `saveReviewToDb`). -/
structure MemState where
  dappsStore : List FrontendDappRegistered
  reviewsByDappStore : List (String × List DappReview)
  allReviewsStore : List DappReview
  taskDefinitionsStore : List TaskDefinition
  userProfilesDB : List (String × UserProfile)
  userTaskProgressStore : List (String × List (String × UserTaskProgressEntry))
deriving DecidableEq, Repr

/-! ## Aggregates (`calculateDappAggregates`, lines 173-179) -/

/-- `Number(x.toFixed(2))`: round to 2 decimal places.  ECMAScript
`toFixed` picks the integer `n` with `n / 100` closest to `x`, the larger
`n` on ties, i.e. `⌊100 x + 1/2⌋ / 100` (exact over ℚ; IEEE-double
artefacts are outside this model). -/
def round2 (q : ℚ) : ℚ := ((⌊q * 100 + 1 / 2⌋ : ℤ) : ℚ) / 100

/-- `calculateDappAggregates` (backend-service.ts lines 173-179): the pair
`(totalReviews, averageRating)` computed from the reviews of one dApp. -/
def calculateDappAggregates (reviewsForThisDapp : List DappReview) : ℕ × ℚ :=
  let totalReviews := reviewsForThisDapp.length
  let averageRating : ℚ :=
    if 0 < totalReviews then
      (reviewsForThisDapp.foldl (fun sum r => sum + r.starRating) 0) / (totalReviews : ℚ)
    else 0
  (totalReviews, round2 averageRating)

/-! ## Task system and streaks (backend-service.ts lines 264-375)

`Date.now()` is passed explicitly as `now` (milliseconds).  The code
compares UTC calendar days in two ways that coincide for non-negative
timestamps when the server clock/timezone is UTC (the deployment
assumption of the spec):
* `getUtcDateString` (`toISOString().split('T')[0]`): two timestamps get
  the same date string iff they have the same UTC day number
  `t / MS_PER_DAY`;
* `new Date(t).setHours(0,0,0,0)` truncates to the local midnight, which
  under TZ=UTC is `(t / MS_PER_DAY) * MS_PER_DAY`; the quotient of the
  difference of two such day starts by `MS_PER_DAY` is exactly the
  difference of the day numbers. -/

def MS_PER_DAY : ℕ := 24 * 60 * 60 * 1000

/-- The UTC calendar-day number of a millisecond timestamp; models both
`getUtcDateString` equality and `setHours(0,0,0,0)` day starts. -/
def getUtcDay (t : ℕ) : ℕ := t / MS_PER_DAY

/-- `Math.floor((todayStart - lastReviewDayStart) / MS_PER_DAY)`
(backend-service.ts line 362).  Both day starts are multiples of
`MS_PER_DAY`, so this is exactly the difference of the day numbers. -/
def daysDifference (lastReviewTimestamp now : ℕ) : ℤ :=
  (getUtcDay now : ℤ) - (getUtcDay lastReviewTimestamp : ℤ)

def POINTS_STREAK_BONUS_PER_DAY : ℤ := 5

/-- `userProfilesDB[userAddress.toLowerCase()]` (pure read). -/
def profileAt (mem : MemState) (userAddress : String) : Option UserProfile :=
  alistGet (toLowerStr userAddress) mem.userProfilesDB

/-- Current point balance of a user (`0` when no profile exists yet,
matching the lazily created profile's initial balance). -/
def userPoints (mem : MemState) (userAddress : String) : ℤ :=
  ((profileAt mem userAddress).map UserProfile.points).getD 0

/-- Current review streak of a user (`0` when no profile exists yet). -/
def userStreak (mem : MemState) (userAddress : String) : ℕ :=
  ((profileAt mem userAddress).map UserProfile.reviewStreak).getD 0

/-- `getOrCreateUserProfile` (lines 112-125): create a zeroed profile
keyed by the lowercase address on first reference. -/
def getOrCreateUserProfile (mem : MemState) (userAddress : String) :
    MemState × UserProfile :=
  let lowerAddress := toLowerStr userAddress
  match alistGet lowerAddress mem.userProfilesDB with
  | some p => (mem, p)
  | none =>
    let p : UserProfile :=
      { address := userAddress, points := 0, reviewStreak := 0
        lastLoginTimestamp := 0, lastReviewTimestamp := 0 }
    ({ mem with userProfilesDB := alistSet lowerAddress p mem.userProfilesDB }, p)

/-- `updateUserProfileInDB` (lines 127-130). -/
def updateUserProfileInDB (mem : MemState) (profile : UserProfile) : MemState :=
  { mem with userProfilesDB := alistSet (toLowerStr profile.address) profile mem.userProfilesDB }

/-- Models an in-place mutation of the profile object obtained from
`getOrCreateUserProfile userAddress`: in the source that object is the one
stored at key `userAddress.toLowerCase()`, so mutating it updates the
store at that key immediately. -/
def inPlaceProfileWrite (mem : MemState) (userAddress : String) (p : UserProfile) : MemState :=
  { mem with userProfilesDB := alistSet (toLowerStr userAddress) p mem.userProfilesDB }

/-- In-place mutation of the profile object followed by the source's
explicit `updateUserProfileInDB(profile)` (which keys by
`profile.address.toLowerCase()`, normally the same key). -/
def writeProfileBack (mem : MemState) (userAddress : String) (p : UserProfile) : MemState :=
  updateUserProfileInDB (inPlaceProfileWrite mem userAddress p) p

/-- `awardPointsAndNotify` (lines 270-277): `profile.points += points`
(in place) then `updateUserProfileInDB(profile)`. -/
def awardPointsAndNotify (mem : MemState) (userAddress : String) (points : ℤ) : MemState :=
  let r := getOrCreateUserProfile mem userAddress
  let profile := { r.2 with points := r.2.points + points }
  writeProfileBack r.1 userAddress profile

def emptyProgress (taskId : String) : UserTaskProgressEntry :=
  { taskId := taskId, currentCount := 0, lastProgressTimestamp := 0
    isCompletedThisPeriod := false }

/-- The progress entry of `(user, taskId)` as `getUserTaskProgress` would
return it (pure read; the default is the lazily created entry). -/
def progressOf (mem : MemState) (userAddress taskId : String) : UserTaskProgressEntry :=
  (alistGet taskId ((alistGet (toLowerStr userAddress) mem.userTaskProgressStore).getD [])).getD
    (emptyProgress taskId)

/-- `getUserTaskProgress` (lines 279-293): lazily create the per-user map
and the per-task entry, then return the entry. -/
def getUserTaskProgress (mem : MemState) (userAddress taskId : String) :
    MemState × UserTaskProgressEntry :=
  let lowerUserAddress := toLowerStr userAddress
  let userMap := (alistGet lowerUserAddress mem.userTaskProgressStore).getD []
  match alistGet taskId userMap with
  | some e => (mem, e)
  | none =>
    let e := emptyProgress taskId
    ({ mem with userTaskProgressStore :=
        alistSet lowerUserAddress (alistSet taskId e userMap) mem.userTaskProgressStore }, e)

/-- Models an in-place mutation of the entry object returned by
`getUserTaskProgress` (the source mutates the object stored inside
`userTaskProgressStore`). -/
def setProgress (mem : MemState) (userAddress taskId : String)
    (e : UserTaskProgressEntry) : MemState :=
  let lowerUserAddress := toLowerStr userAddress
  let userMap := (alistGet lowerUserAddress mem.userTaskProgressStore).getD []
  { mem with userTaskProgressStore :=
      alistSet lowerUserAddress (alistSet taskId e userMap) mem.userTaskProgressStore }

/-- `isDailyTaskCompletedToday` (lines 295-305): on a period rollover
(different UTC date string) reset the entry in place, then report
`isCompletedThisPeriod`. -/
def isDailyTaskCompletedToday (mem : MemState) (userAddress taskId : String) (now : ℕ) :
    MemState × Bool :=
  let r := getUserTaskProgress mem userAddress taskId
  let progress := r.2
  if getUtcDay now = getUtcDay progress.lastProgressTimestamp then
    (r.1, progress.isCompletedThisPeriod)
  else
    let progress := { progress with isCompletedThisPeriod := false, currentCount := 0 }
    (setProgress r.1 userAddress taskId progress, progress.isCompletedThisPeriod)

/-- Lines 318-328 of `markTaskCompleted`: the part after the daily guard.
Re-reads the (possibly reset) entry, increments it, and on reaching
`targetCount` marks it completed and awards the points. -/
def markTaskProgress (mem : MemState) (userAddress : String) (task : TaskDefinition)
    (now : ℕ) : MemState × Bool :=
  let progress := progressOf mem userAddress task.taskId
  let progress := { progress with currentCount := progress.currentCount + 1
                                  lastProgressTimestamp := now }
  let mem := setProgress mem userAddress task.taskId progress
  if task.targetCount ≤ progress.currentCount then
    let progress := { progress with isCompletedThisPeriod := true }
    let mem := setProgress mem userAddress task.taskId progress
    let mem := awardPointsAndNotify mem userAddress task.pointsReward
    (mem, true)
  else (mem, false)

/-- `markTaskCompleted` (lines 307-329).  Returns `justCompleted`. -/
def markTaskCompleted (mem : MemState) (userAddress : String) (task : TaskDefinition)
    (now : ℕ) : MemState × Bool :=
  let r0 := getUserTaskProgress mem userAddress task.taskId
  let mem := r0.1
  if task.cadence = TaskCadence.DAILY then
    let r := isDailyTaskCompletedToday mem userAddress task.taskId now
    if r.2 then (r.1, false) else markTaskProgress r.1 userAddress task now
  else markTaskProgress mem userAddress task now

/-- The streak-update branch chain of `processReviewAndRatingTasks`
(lines 364-366), operating on the live profile object. -/
def updateStreak (p : UserProfile) (now : ℕ) : UserProfile :=
  let dd := daysDifference p.lastReviewTimestamp now
  if 0 < p.lastReviewTimestamp ∧ dd = 1 then
    { p with reviewStreak := p.reviewStreak + 1 }
  else if dd ≠ 0 then { p with reviewStreak := 1 }
  else if p.lastReviewTimestamp = 0 then { p with reviewStreak := 1 }
  else p

/-- One `filter` + `for ... markTaskCompleted` block of
`processReviewAndRatingTasks` (lines 346-349 and 352-355): run every
active daily task of the given type. -/
def runDailyTasksOfType (mem : MemState) (userAddress : String) (tt : TaskType)
    (now : ℕ) : MemState :=
  let tasks := mem.taskDefinitionsStore.filter
    (fun t => t.isActive && t.ttype == tt && t.cadence == TaskCadence.DAILY)
  tasks.foldl (fun m t => (markTaskCompleted m userAddress t now).1) mem

/-- Both task loops of `processReviewAndRatingTasks` as run on a
text-review event (rate-any-dApp tasks, then review-any-dApp tasks). -/
def runReviewTaskLoops (mem : MemState) (userAddress : String) (now : ℕ) : MemState :=
  runDailyTasksOfType (runDailyTasksOfType mem userAddress TaskType.DAILY_RATE_ANY_DAPP now)
    userAddress TaskType.DAILY_REVIEW_ANY_DAPP now

/-- `processReviewAndRatingTasks` (lines 345-374): rate-any-dApp tasks
always run; when review text is present also run the review tasks, update
the streak on the live profile, pay the streak bonus whenever the
resulting streak is positive, and finally stamp `lastReviewTimestamp`. -/
def processReviewAndRatingTasks (mem : MemState) (userAddress : String)
    (isReviewTextPresent : Bool) (now : ℕ) : MemState :=
  let mem := runDailyTasksOfType mem userAddress TaskType.DAILY_RATE_ANY_DAPP now
  if isReviewTextPresent then
    let mem := runDailyTasksOfType mem userAddress TaskType.DAILY_REVIEW_ANY_DAPP now
    let r := getOrCreateUserProfile mem userAddress
    let profile := updateStreak r.2 now
    let mem := inPlaceProfileWrite r.1 userAddress profile
    let mem :=
      if 0 < profile.reviewStreak then
        awardPointsAndNotify mem userAddress
          ((profile.reviewStreak : ℤ) * POINTS_STREAK_BONUS_PER_DAY)
      else mem
    let r2 := getOrCreateUserProfile mem userAddress
    let profile2 := { r2.2 with lastReviewTimestamp := now }
    writeProfileBack r2.1 userAddress profile2
  else mem

/-! ## Ingestion pipeline (backend-service.ts lines 384-498) -/

/-- `saveReviewToDb` (lines 384-411): `INSERT OR IGNORE` into
`etherscan_reviews` keyed by the primary key `txHash`.  `dbOk = false`
models an open/insert failure: the source catches the exception inside
this function and only logs it ("for now, we just log it"), so nothing is
thrown to the caller and the table is unchanged. -/
def saveReviewToDb (db : List ReviewRow) (review : DappReview) (dbOk : Bool) :
    List ReviewRow :=
  if dbOk then
    if db.any (fun row => row.txHash == review.id) then db
    else db ++ [{ dappId := review.dappId, txHash := review.id
                  fromAddress := review.rater, starRating := review.starRating
                  reviewText := review.reviewText, blockNumber := review.timestamp }]
  else db

/-- Lines 445-450: a dApp fetched from the SDK enters the store with zero
aggregates ("Will be updated below"). -/
def frontendOfShell (shell : SDKDappRegistered) : FrontendDappRegistered :=
  { dappId := shell.dappId, name := shell.name, description := shell.description
    url := shell.url, category := shell.category, owner := shell.owner
    totalReviews := 0, averageRating := 0 }

/-- Stable insertion into a most-recent-first list, modelling
`[fullReview, ...allReviewsStore].sort((a, b) => b.timestamp - a.timestamp)`. -/
def insertByTsDesc (x : DappReview) : List DappReview → List DappReview
  | [] => [x]
  | y :: ys => if y.timestamp < x.timestamp then x :: y :: ys else y :: insertByTsDesc x ys

def sortByTimestampDesc : List DappReview → List DappReview
  | [] => []
  | x :: xs => insertByTsDesc x (sortByTimestampDesc xs)

def updateAggregates (d : FrontendDappRegistered) (agg : ℕ × ℚ) : FrontendDappRegistered :=
  { d with totalReviews := agg.1, averageRating := agg.2 }

/-- Steps 2-3 of `processNewReview` after the duplicate-id guard
(lines 438-497): resolve the dApp (fetching a shell from the SDK when it
is missing from the store; `sdkDapp = none` models both a fetch error and
a not-found result), cache the review in both review stores, recompute
the affected dApp's aggregates, and run the progression engine. -/
def applyReviewToCache (mem : MemState) (r : DappReview) (now : ℕ)
    (sdkDapp : Option SDKDappRegistered) : MemState :=
  let found := mem.dappsStore.find? (fun d => d.dappId == r.dappId)
  let resolved : Option FrontendDappRegistered × MemState :=
    match found with
    | some d => (some d, mem)
    | none =>
      match sdkDapp with
      | some shell =>
        let nd := frontendOfShell shell
        (some nd, { mem with dappsStore := mem.dappsStore ++ [nd] })
      | none => (none, mem)
  let dapp := resolved.1
  let mem := resolved.2
  let fullReview := { r with dappName := ((dapp.map FrontendDappRegistered.name).getD "Unknown Dapp") }
  let mem := { mem with allReviewsStore := sortByTimestampDesc (fullReview :: mem.allReviewsStore) }
  let mem := { mem with reviewsByDappStore := alistUnshift fullReview.dappId fullReview mem.reviewsByDappStore }
  let mem :=
    match mem.dappsStore.findIdx? (fun d => d.dappId == fullReview.dappId) with
    | some dappIndex =>
      let currentReviewsForDapp := (alistGet fullReview.dappId mem.reviewsByDappStore).getD []
      let aggregates := calculateDappAggregates currentReviewsForDapp
      let updated := updateAggregates (mem.dappsStore.getD dappIndex default) aggregates
      { mem with dappsStore := mem.dappsStore.set dappIndex updated }
    | none => mem
  let hasReviewText := trimmedNonempty fullReview.reviewText
  processReviewAndRatingTasks mem fullReview.rater hasReviewText now

/-- `processNewReview` (lines 421-498).  The optional/zero event timestamp
defaults to `Date.now()`; the review is persisted first (`saveReviewToDb`
swallows persistence errors), then the cache is updated unless the id is
already present in `allReviewsStore`. -/
def processNewReview (mem : MemState) (db : List ReviewRow) (review : DappReview)
    (now : ℕ) (dbOk : Bool) (sdkDapp : Option SDKDappRegistered) :
    MemState × List ReviewRow :=
  let r := if review.timestamp = 0 then { review with timestamp := now } else review
  let db := saveReviewToDb db r dbOk
  if mem.allReviewsStore.any (fun x => x.id == r.id) then (mem, db)
  else (applyReviewToCache mem r now sdkDapp, db)

/-! ## Startup bulk load (`fetchInitialDataFromDb`, lines 181-262) -/

/-- The lowercase-keyed `dappInfoMap` built from the SDK dApp shells
(lines 190-193; `Map.set` overwrites, so a later shell wins). -/
def buildDappInfoMap (sdkDapps : List SDKDappRegistered) :
    List (String × SDKDappRegistered) :=
  sdkDapps.foldl (fun m d => alistSet (toLowerStr d.dappId) d m) []

/-- Lines 210-219: map a SQLite row to the frontend review type. -/
def rowToReview (dappInfoMap : List (String × SDKDappRegistered)) (row : ReviewRow) :
    DappReview :=
  { id := row.txHash, attestationId := row.txHash, dappId := toLowerStr row.dappId
    starRating := row.starRating, reviewText := row.reviewText
    rater := row.fromAddress, timestamp := row.blockNumber
    dappName := ((alistGet (toLowerStr row.dappId) dappInfoMap).map SDKDappRegistered.name).getD
      "Unknown Dapp" }

/-- Lines 221-227 for `newReviewsByDappStore`: group the mapped rows by
lowercase dApp id, preserving row order within each group. -/
def loadReviewsByDapp (dappInfoMap : List (String × SDKDappRegistered))
    (rows : List ReviewRow) : List (String × List DappReview) :=
  rows.foldl (fun acc row => alistAppend (toLowerStr row.dappId) (rowToReview dappInfoMap row) acc) []

/-- `fetchInitialDataFromDb` (lines 181-262): rebuild the three review/dApp
stores from the SDK shells and the SQLite rows, then swap them in
atomically.  Task definitions, profiles and task progress are untouched. -/
def fetchInitialDataFromDb (sdkDapps : List SDKDappRegistered) (rows : List ReviewRow)
    (mem : MemState) : MemState :=
  let dappInfoMap := buildDappInfoMap sdkDapps
  let newAllReviewsStore := rows.map (rowToReview dappInfoMap)
  let newReviewsByDappStore := loadReviewsByDapp dappInfoMap rows
  let newDappsStore := sdkDapps.map (fun dappShell =>
    let key := toLowerStr dappShell.dappId
    let reviewsForThisDapp := (alistGet key newReviewsByDappStore).getD []
    let aggregates := calculateDappAggregates reviewsForThisDapp
    { dappId := key, name := dappShell.name, description := dappShell.description
      url := dappShell.url, category := dappShell.category, owner := dappShell.owner
      totalReviews := aggregates.1, averageRating := aggregates.2 : FrontendDappRegistered })
  { mem with dappsStore := newDappsStore
             reviewsByDappStore := newReviewsByDappStore
             allReviewsStore := newAllReviewsStore }

/-! ## Durable listener (`startReviewListener`, lines 524-584, and
`gracefulShutdown`, lines 921-936)

The retry loop is modelled as a state machine.  `connectStep ok` is one
run of the `connect` closure whose `sdk.listenToReviews` call succeeds
(`ok = true`) or throws; a scheduled `setTimeout(connect, delay)` is the
`pendingRetryDelay` field and `fireRetry` is the timer firing, which in
the source invokes `connect` unconditionally — `connect` never reads
`isListenerRunning`.  `subscribeCalls` counts subscription attempts. -/

def baseDelay : ℕ := 1000
def maxDelay : ℕ := 60000

/-- Line 576: `Math.min(baseDelay * Math.pow(2, reconnectAttempts), maxDelay)`
computed after `reconnectAttempts++`. -/
def backoffDelay (reconnectAttempts : ℕ) : ℕ :=
  min (baseDelay * 2 ^ reconnectAttempts) maxDelay

structure ListenerState where
  isListenerRunning : Bool
  reconnectAttempts : ℕ
  pendingRetryDelay : Option ℕ
  subscribeCalls : ℕ
deriving DecidableEq, Repr

/-- One run of `connect` (lines 551-581): attempt to subscribe; on failure
increment `reconnectAttempts` and schedule the next retry with the
capped exponential delay. -/
def connectStep (s : ListenerState) (ok : Bool) : ListenerState :=
  if ok then
    { s with subscribeCalls := s.subscribeCalls + 1, pendingRetryDelay := none }
  else
    let attempts := s.reconnectAttempts + 1
    { s with subscribeCalls := s.subscribeCalls + 1
             reconnectAttempts := attempts
             pendingRetryDelay := some (backoffDelay attempts) }

/-- Lines 555-559: a delivered event resets the reconnect counter. -/
def eventReceived (s : ListenerState) : ListenerState :=
  if 0 < s.reconnectAttempts then { s with reconnectAttempts := 0 } else s

/-- The `setTimeout` timer firing (line 579): the scheduled callback is
`connect` and runs unconditionally; nothing in `connect` checks
`isListenerRunning`. -/
def fireRetry (s : ListenerState) (ok : Bool) : ListenerState :=
  match s.pendingRetryDelay with
  | some _ => connectStep { s with pendingRetryDelay := none } ok
  | none => s

/-- The listener-relevant effect of `gracefulShutdown` (line 924):
`isListenerRunning = false`.  The pending timer, if any, is not cleared. -/
def gracefulShutdown (s : ListenerState) : ListenerState :=
  { s with isListenerRunning := false }

/-! ## Concrete sample data (used by witnesses and counterexamples) -/

/-- A small concrete review used by witnesses. -/
def sampleReview (i : String) (q : ℚ) : DappReview :=
  { id := i, attestationId := i, dappId := "0xd1", starRating := q
    rater := "0xRaterA", reviewText := "great dapp", dappName := "D1", timestamp := 5 }

/-- The empty in-memory state. -/
def emptyMem : MemState :=
  { dappsStore := [], reviewsByDappStore := [], allReviewsStore := []
    taskDefinitionsStore := [], userProfilesDB := [], userTaskProgressStore := [] }

/-- A state that already holds the review with id `tx1`. -/
def memWithTx1 : MemState :=
  { emptyMem with
    allReviewsStore := [sampleReview "tx1" 5]
    reviewsByDappStore := [("0xd1", [sampleReview "tx1" 5])] }

/-- A concrete daily-login task with `targetCount = 1`. -/
def sampleLoginTask : TaskDefinition :=
  { taskId := "daily-login", title := "Daily Check-in", ttype := TaskType.DAILY_LOGIN
    cadence := TaskCadence.DAILY, pointsReward := 10, targetCount := 1, isActive := true }

/-- A concrete weekly task, already at its target, for the non-daily re-award claim. -/
def sampleWeeklyTask : TaskDefinition :=
  { taskId := "weekly-review", title := "Weekly Reviewer", ttype := TaskType.DAILY_REVIEW_ANY_DAPP
    cadence := TaskCadence.WEEKLY, pointsReward := 50, targetCount := 2, isActive := true }

/-- A state whose only task progress is the weekly task already at its
target count (completed once already). -/
def memWeekly : MemState :=
  { emptyMem with
    userTaskProgressStore :=
      [("0xratera",
        [("weekly-review",
          { taskId := "weekly-review", currentCount := 2
            lastProgressTimestamp := 500, isCompletedThisPeriod := true })])] }

/-- A concrete SDK dApp shell (mixed-case id, to exercise lowercasing). -/
def sampleShell : SDKDappRegistered :=
  { dappId := "0xD1", name := "Dapp One", description := "first dapp"
    url := "https", category := none, owner := "0xOwner" }

/-- Concrete SQLite rows for the bulk-load witness. -/
def sampleRow1 : ReviewRow :=
  { dappId := "0xD1", txHash := "tr1", fromAddress := "0xRaterA"
    starRating := 5, reviewText := "great", blockNumber := 100 }

def sampleRow2 : ReviewRow :=
  { dappId := "0xd1", txHash := "tr2", fromAddress := "0xRaterB"
    starRating := 4, reviewText := "good", blockNumber := 101 }

/-- A listener state with a pending reconnect timer. -/
def listenerPendingRetry : ListenerState :=
  { isListenerRunning := true, reconnectAttempts := 3
    pendingRetryDelay := some (backoffDelay 3), subscribeCalls := 7 }

/-! # Theorems

First the general-purpose helper lemmas, then one theorem per claim
(with witnesses/counterexamples). -/

/-! ## Association-list lemmas -/

@[simp] theorem alistGet_nil {α : Type} (k : String) : alistGet (α := α) k [] = none := rfl

@[simp] theorem alistGet_alistSet_self {α : Type} (k : String) (v : α) (l : List (String × α)) :
    alistGet k (alistSet k v l) = some v := by
  induction l with
  | nil => simp [alistGet, alistSet]
  | cons hd tl ih =>
    obtain ⟨k2, v2⟩ := hd
    by_cases h : k2 = k
    · simp [alistGet, alistSet, h]
    · simp [alistGet, alistSet, h, ih]

theorem alistGet_alistSet_ne {α : Type} {k k2 : String} (h : k2 ≠ k) (v : α)
    (l : List (String × α)) : alistGet k (alistSet k2 v l) = alistGet k l := by
  induction l with
  | nil => simp [alistGet, alistSet, h]
  | cons hd tl ih =>
    obtain ⟨k3, v3⟩ := hd
    simp only [alistSet]
    by_cases h3 : k3 = k2
    · rw [if_pos h3]
      have hk : k3 ≠ k := by rw [h3]; exact h
      simp [alistGet, hk]
    · rw [if_neg h3]
      simp [alistGet, ih]

theorem alistSet_eq_of_get {α : Type} {k : String} {v : α} {l : List (String × α)}
    (h : alistGet k l = some v) : alistSet k v l = l := by
  induction l with
  | nil => simp [alistGet] at h
  | cons hd tl ih =>
    obtain ⟨k2, v2⟩ := hd
    by_cases h2 : k2 = k
    · subst h2
      simp [alistGet] at h
      simp [alistSet, h]
    · simp [alistGet, h2] at h
      simp [alistSet, h2, ih h]

/-! ## Rounding lemmas -/

theorem round2_zero : round2 0 = 0 := by
  rw [round2, show ((0 : ℚ) * 100 + 1 / 2) = 1 / 2 by norm_num,
    show (⌊(1 : ℚ) / 2⌋ = (0 : ℤ)) from by rw [Int.floor_eq_iff] <;> norm_num]
  norm_num

theorem foldl_add_starRating (l : List DappReview) (a : ℚ) :
    l.foldl (fun sum r => sum + r.starRating) a = a + (l.map DappReview.starRating).sum := by
  induction l generalizing a with
  | nil => simp
  | cons x xs ih => simp [ih, add_assoc]

/-! ## C2: aggregate correctness -/

/-- C2: `calculateDappAggregates` returns `totalReviews` equal to the
length of the review list, averageRating `0` for an empty list, and
otherwise the arithmetic mean of the star ratings rounded to 2 decimal
places. -/
theorem calculateDappAggregates_mean_rounded (reviews : List DappReview) :
    (calculateDappAggregates reviews).1 = reviews.length ∧
    (reviews = [] → (calculateDappAggregates reviews).2 = 0) ∧
    (reviews ≠ [] →
      (calculateDappAggregates reviews).2 =
        round2 ((reviews.map DappReview.starRating).sum / (reviews.length : ℚ))) := by
  refine ⟨rfl, ?_, ?_⟩
  · rintro rfl
    simpa [calculateDappAggregates] using round2_zero
  · intro h
    have hl : 0 < reviews.length := List.length_pos.mpr h
    simp [calculateDappAggregates, hl, foldl_add_starRating]

/-- Witness for C2 on a concrete three-review list with mean 5/3. -/
theorem calculateDappAggregates_mean_rounded_witness :
    ([sampleReview "a" 1, sampleReview "b" 2, sampleReview "c" 2] : List DappReview) ≠ [] ∧
    (calculateDappAggregates [sampleReview "a" 1, sampleReview "b" 2, sampleReview "c" 2]).2 =
      round2 (5 / 3) := by
  refine ⟨by simp, ?_⟩
  have h := (calculateDappAggregates_mean_rounded
    [sampleReview "a" 1, sampleReview "b" 2, sampleReview "c" 2]).2.2 (by simp)
  rw [h]
  norm_num [sampleReview]

/-! ## C5: the streak update law -/

/-- C5: on a text-review event the streak update follows the case law of
the spec: first review ever (`lastReviewAt = 0`) sets the streak to 1;
otherwise `daysDifference = 1` increments it by exactly 1,
`daysDifference = 0` (same-day repeat) leaves it unchanged, and any other
difference resets it to 1. -/
theorem updateStreak_case_law (p : UserProfile) (now : ℕ) :
    (updateStreak p now).reviewStreak =
      if p.lastReviewTimestamp = 0 then 1
      else if daysDifference p.lastReviewTimestamp now = 1 then p.reviewStreak + 1
      else if daysDifference p.lastReviewTimestamp now = 0 then p.reviewStreak
      else 1 := by
  by_cases h0 : p.lastReviewTimestamp = 0
  · by_cases h2 : daysDifference p.lastReviewTimestamp now = 0
    · simp [updateStreak, h0, h2]
    · simp [updateStreak, h0, h2]
  · have hpos : 0 < p.lastReviewTimestamp := Nat.pos_of_ne_zero h0
    by_cases h1 : daysDifference p.lastReviewTimestamp now = 1
    · simp [updateStreak, hpos, h0, h1]
    · by_cases h2 : daysDifference p.lastReviewTimestamp now = 0
      · simp [updateStreak, h0, h1, h2]
      · simp [updateStreak, h0, h1, h2]

/-! ## C4: reconnect backoff (corrected) -/

/-- C4 counterexample: the claim says the delay sequence starts at the
base delay and that after a reset the next delay is the base value; in the
code `reconnectAttempts` is incremented before the delay is computed, so
the first retry after a reset counter waits `min(base·2, max) = 2000 ms`,
not `baseDelay = 1000 ms`. -/
theorem backoff_first_delay_counterexample :
    (connectStep (eventReceived
        { isListenerRunning := true, reconnectAttempts := 5
          pendingRetryDelay := none, subscribeCalls := 1 }) false).pendingRetryDelay =
      some 2000 ∧ (2000 : ℕ) ≠ baseDelay := by
  constructor
  · decide
  · decide

/-- C4 amended: the delay before the k-th consecutive retry is
`min(base·2^k, max)` (so the first retry waits twice the base delay); the
sequence is monotone in the failure count and bounded by `maxDelay`; after
a successful delivery the counter resets, so the delay of the next failure
is `min(2·base, max)`. -/
theorem backoff_doubling_capped_reset (s : ListenerState) (j k : ℕ) (h : j ≤ k) :
    backoffDelay j ≤ backoffDelay k ∧
    backoffDelay k ≤ maxDelay ∧
    backoffDelay (k + 1) = min (2 * (baseDelay * 2 ^ k)) maxDelay ∧
    (connectStep (eventReceived s) false).pendingRetryDelay =
      some (min (2 * baseDelay) maxDelay) := by
  refine ⟨?_, ?_, ?_, ?_⟩
  · exact min_le_min (Nat.mul_le_mul_left _ (Nat.pow_le_pow_right (by norm_num) h)) le_rfl
  · exact min_le_right _ _
  · rw [backoffDelay, pow_succ]
    congr 1
    ring
  · have h2 : (eventReceived s).reconnectAttempts = 0 := by
      unfold eventReceived
      split_ifs with h1
      · rfl
      · omega
    norm_num [connectStep, h2, backoffDelay, baseDelay, maxDelay]

/-- Witness for C4 (amended) at concrete failure counts 1 ≤ 3. -/
theorem backoff_doubling_capped_reset_witness :
    (1 : ℕ) ≤ 3 ∧
    (backoffDelay 1 ≤ backoffDelay 3 ∧
     backoffDelay 3 ≤ maxDelay ∧
     backoffDelay (3 + 1) = min (2 * (baseDelay * 2 ^ 3)) maxDelay ∧
     (connectStep (eventReceived listenerPendingRetry) false).pendingRetryDelay =
       some (min (2 * baseDelay) maxDelay)) :=
  ⟨by decide, backoff_doubling_capped_reset listenerPendingRetry 1 3 (by decide)⟩

/-! ## C9: retries keep firing after shutdown (code bug) -/

/-! ## C1: duplicate delivery is a cache no-op -/

/-- C1: delivering an event whose `id` is already present in the global
review list leaves the whole in-memory state — every dApp's
`reviewCount`/`averageRating`, the per-dApp and the global review lists,
all user profiles and all task progress — unchanged; in particular no
points are awarded again for the same review. -/
theorem processNewReview_duplicate_id_noop (mem : MemState) (db : List ReviewRow)
    (review : DappReview) (now : ℕ) (dbOk : Bool) (sdkDapp : Option SDKDappRegistered)
    (h : review.id ∈ mem.allReviewsStore.map DappReview.id) :
    (processNewReview mem db review now dbOk sdkDapp).1 = mem := by
  obtain ⟨x, hx, hid⟩ := List.mem_map.mp h
  have hany : mem.allReviewsStore.any
      (fun y => y.id == (if review.timestamp = 0 then { review with timestamp := now }
        else review).id) = true := by
    rw [List.any_eq_true]
    refine ⟨x, hx, ?_⟩
    have hsame : (if review.timestamp = 0 then { review with timestamp := now }
        else review).id = review.id := by
      split <;> rfl
    rw [hsame, hid]
    simp
  simp only [processNewReview]
  simp [hany]

/-- Witness for C1 on a concrete state already holding review `tx1`. -/
theorem processNewReview_duplicate_id_noop_witness :
    (sampleReview "tx1" 5).id ∈ memWithTx1.allReviewsStore.map DappReview.id ∧
    (processNewReview memWithTx1 [] (sampleReview "tx1" 5) 99 true none).1 = memWithTx1 :=
  ⟨by simp [memWithTx1, sampleReview, emptyMem],
   processNewReview_duplicate_id_noop memWithTx1 [] (sampleReview "tx1" 5) 99 true none
     (by simp [memWithTx1, sampleReview, emptyMem])⟩

/-! ## C3: persistence failure does not protect the cache (corrected) -/

/-- C3 counterexample: with the durable store failing (`dbOk = false`),
ingesting a fresh review still applies it to the in-memory cache (the
global review list grows to 1 entry) while the store keeps no row, so the
claim that on persistence failure "the event is not applied to the
in-memory cache" and "the pipeline returns an error" is false: the error
is swallowed inside `saveReviewToDb` and processing continues. -/
theorem persistFailure_cache_updated_counterexample :
    (processNewReview emptyMem [] (sampleReview "tx9" 4) 1000 false none).2 = [] ∧
    ((processNewReview emptyMem [] (sampleReview "tx9" 4) 1000 false none).1.allReviewsStore).length
      = 1 := by
  constructor
  · rfl
  · rfl

/-- C3 amended: on persistence failure the exception is caught and logged
inside `saveReviewToDb`; no error reaches the caller (the subscription is
not crashed), the durable table is left unchanged, and the in-memory
cache/progression update proceeds exactly as if persistence had succeeded
— the cache may therefore reflect un-persisted data. -/
theorem persistFailure_swallowed_cache_updated (mem : MemState) (db : List ReviewRow)
    (review : DappReview) (now : ℕ) (sdkDapp : Option SDKDappRegistered) :
    (processNewReview mem db review now false sdkDapp).2 = db ∧
    (processNewReview mem db review now false sdkDapp).1 =
      (processNewReview mem db review now true sdkDapp).1 := by
  constructor
  · simp only [processNewReview, saveReviewToDb, Bool.false_eq_true, if_false]
    split <;> split <;> rfl
  · simp only [processNewReview, saveReviewToDb, Bool.false_eq_true, if_false]
    split <;> split <;> rfl

/-! ## C9: retries keep firing after shutdown (code bug) -/

/-- C9 (code bug): the shutdown path sets `isListenerRunning := false`
with the stated intent of stopping reconnects, but `connect` never reads
the flag, so a pending retry timer still fires a full reconnect attempt
(one more subscribe call) and schedules yet another retry. -/
theorem retry_fires_after_shutdown :
    (gracefulShutdown listenerPendingRetry).isListenerRunning = false ∧
    (fireRetry (gracefulShutdown listenerPendingRetry) false).subscribeCalls =
      listenerPendingRetry.subscribeCalls + 1 ∧
    (fireRetry (gracefulShutdown listenerPendingRetry) false).pendingRetryDelay =
      some (backoffDelay 4) := by
  refine ⟨rfl, ?_, ?_⟩ <;> decide

/-! ## Progression-engine helper lemmas -/

theorem setProgress_userProfilesDB (mem : MemState) (u id : String)
    (e : UserTaskProgressEntry) :
    (setProgress mem u id e).userProfilesDB = mem.userProfilesDB := rfl

theorem userPoints_setProgress (mem : MemState) (u id : String) (e : UserTaskProgressEntry)
    (u2 : String) : userPoints (setProgress mem u id e) u2 = userPoints mem u2 := rfl

theorem progressOf_setProgress_self (mem : MemState) (u id : String)
    (e : UserTaskProgressEntry) : progressOf (setProgress mem u id e) u id = e := by
  unfold progressOf setProgress
  simp

theorem entry_some_setProgress (mem : MemState) (u id : String) (e : UserTaskProgressEntry) :
    alistGet id ((alistGet (toLowerStr u) (setProgress mem u id e).userTaskProgressStore).getD [])
      = some e := by
  unfold setProgress
  simp

theorem progressOf_congr {mem mem2 : MemState} (u id : String)
    (h : mem.userTaskProgressStore = mem2.userTaskProgressStore) :
    progressOf mem u id = progressOf mem2 u id := by
  unfold progressOf
  rw [h]

theorem userPoints_congr {mem mem2 : MemState} (u : String)
    (h : mem.userProfilesDB = mem2.userProfilesDB) :
    userPoints mem u = userPoints mem2 u := by
  unfold userPoints profileAt
  rw [h]

theorem getUserTaskProgress_snd (mem : MemState) (u id : String) :
    (getUserTaskProgress mem u id).2 = progressOf mem u id := by
  simp only [getUserTaskProgress, progressOf]
  cases h : alistGet id ((alistGet (toLowerStr u) mem.userTaskProgressStore).getD []) <;>
    simp [h]

theorem getUserTaskProgress_fst_userProfilesDB (mem : MemState) (u id : String) :
    ((getUserTaskProgress mem u id).1).userProfilesDB = mem.userProfilesDB := by
  simp only [getUserTaskProgress]
  cases h : alistGet id ((alistGet (toLowerStr u) mem.userTaskProgressStore).getD []) <;>
    simp [h]

theorem getUserTaskProgress_fst_userPoints (mem : MemState) (u id u2 : String) :
    userPoints (getUserTaskProgress mem u id).1 u2 = userPoints mem u2 :=
  userPoints_congr u2 (getUserTaskProgress_fst_userProfilesDB mem u id)

theorem getUserTaskProgress_fst_progressOf (mem : MemState) (u id : String) :
    progressOf (getUserTaskProgress mem u id).1 u id = progressOf mem u id := by
  simp only [getUserTaskProgress]
  cases h : alistGet id ((alistGet (toLowerStr u) mem.userTaskProgressStore).getD []) with
  | none =>
    simp only [h]
    unfold progressOf
    simp [h]
  | some e => simp [h]

theorem getUserTaskProgress_fst_of_some {mem : MemState} {u id : String}
    {e : UserTaskProgressEntry}
    (h : alistGet id ((alistGet (toLowerStr u) mem.userTaskProgressStore).getD []) = some e) :
    getUserTaskProgress mem u id = (mem, e) := by
  simp [getUserTaskProgress, h]

theorem profileAt_inPlaceProfileWrite (mem : MemState) (u : String) (p : UserProfile) :
    profileAt (inPlaceProfileWrite mem u p) u = some p := by
  unfold profileAt inPlaceProfileWrite
  simp

theorem profileAt_writeProfileBack (mem : MemState) (u : String) (p : UserProfile) :
    profileAt (writeProfileBack mem u p) u = some p := by
  unfold writeProfileBack updateUserProfileInDB inPlaceProfileWrite profileAt
  by_cases h : toLowerStr p.address = toLowerStr u
  · rw [h]
    simp
  · rw [alistGet_alistSet_ne h]
    simp

theorem userPoints_writeProfileBack (mem : MemState) (u : String) (p : UserProfile) :
    userPoints (writeProfileBack mem u p) u = p.points := by
  unfold userPoints
  rw [profileAt_writeProfileBack]
  rfl

theorem userStreak_writeProfileBack (mem : MemState) (u : String) (p : UserProfile) :
    userStreak (writeProfileBack mem u p) u = p.reviewStreak := by
  unfold userStreak
  rw [profileAt_writeProfileBack]
  rfl

theorem userPoints_inPlaceProfileWrite (mem : MemState) (u : String) (p : UserProfile) :
    userPoints (inPlaceProfileWrite mem u p) u = p.points := by
  unfold userPoints
  rw [profileAt_inPlaceProfileWrite]
  rfl

theorem writeProfileBack_userTaskProgressStore (mem : MemState) (u : String) (p : UserProfile) :
    (writeProfileBack mem u p).userTaskProgressStore = mem.userTaskProgressStore := rfl

theorem getOrCreate_profile_eq (mem : MemState) (u : String) :
    (getOrCreateUserProfile mem u).2 =
      (profileAt mem u).getD
        { address := u, points := 0, reviewStreak := 0
          lastLoginTimestamp := 0, lastReviewTimestamp := 0 } := by
  unfold getOrCreateUserProfile profileAt
  cases h : alistGet (toLowerStr u) mem.userProfilesDB <;> simp [h]

theorem getOrCreate_points (mem : MemState) (u : String) :
    ((getOrCreateUserProfile mem u).2).points = userPoints mem u := by
  rw [getOrCreate_profile_eq]
  unfold userPoints
  cases profileAt mem u <;> simp

theorem getOrCreate_streak (mem : MemState) (u : String) :
    ((getOrCreateUserProfile mem u).2).reviewStreak = userStreak mem u := by
  rw [getOrCreate_profile_eq]
  unfold userStreak
  cases profileAt mem u <;> simp

theorem getOrCreate_fst_profileAt (mem : MemState) (u : String) :
    profileAt (getOrCreateUserProfile mem u).1 u = some (getOrCreateUserProfile mem u).2 := by
  unfold getOrCreateUserProfile profileAt
  cases h : alistGet (toLowerStr u) mem.userProfilesDB <;> simp [h]

theorem getOrCreate_fst_userPoints (mem : MemState) (u : String) :
    userPoints (getOrCreateUserProfile mem u).1 u = userPoints mem u := by
  have h1 := getOrCreate_fst_profileAt mem u
  have h2 := getOrCreate_points mem u
  unfold userPoints at h2 ⊢
  rw [h1]
  simpa using h2

theorem getOrCreate_fst_userTaskProgressStore (mem : MemState) (u : String) :
    ((getOrCreateUserProfile mem u).1).userTaskProgressStore = mem.userTaskProgressStore := by
  unfold getOrCreateUserProfile
  cases h : alistGet (toLowerStr u) mem.userProfilesDB <;> simp [h]

theorem award_userPoints (mem : MemState) (u : String) (pts : ℤ) :
    userPoints (awardPointsAndNotify mem u pts) u = userPoints mem u + pts := by
  simp only [awardPointsAndNotify]
  rw [userPoints_writeProfileBack]
  simp [getOrCreate_points]

theorem award_userStreak (mem : MemState) (u : String) (pts : ℤ) :
    userStreak (awardPointsAndNotify mem u pts) u = userStreak mem u := by
  simp only [awardPointsAndNotify]
  rw [userStreak_writeProfileBack]
  simp [getOrCreate_streak]

theorem award_userTaskProgressStore (mem : MemState) (u : String) (pts : ℤ) :
    (awardPointsAndNotify mem u pts).userTaskProgressStore = mem.userTaskProgressStore := by
  simp only [awardPointsAndNotify]
  rw [writeProfileBack_userTaskProgressStore, getOrCreate_fst_userTaskProgressStore]

/-! ## markTaskCompleted characterization lemmas -/

theorem markTaskProgress_complete (mem : MemState) (u : String) (task : TaskDefinition)
    (now : ℕ)
    (h : task.targetCount ≤ (progressOf mem u task.taskId).currentCount + 1) :
    (markTaskProgress mem u task now).2 = true ∧
    progressOf (markTaskProgress mem u task now).1 u task.taskId =
      { progressOf mem u task.taskId with
          currentCount := (progressOf mem u task.taskId).currentCount + 1
          lastProgressTimestamp := now
          isCompletedThisPeriod := true } ∧
    userPoints (markTaskProgress mem u task now).1 u = userPoints mem u + task.pointsReward := by
  simp only [markTaskProgress]
  rw [if_pos (by simpa using h)]
  refine ⟨rfl, ?_, ?_⟩
  · rw [progressOf_congr u task.taskId (award_userTaskProgressStore _ _ _),
      progressOf_setProgress_self]
  · rw [award_userPoints]
    rfl

theorem markTaskProgress_incomplete (mem : MemState) (u : String) (task : TaskDefinition)
    (now : ℕ)
    (h : ¬ task.targetCount ≤ (progressOf mem u task.taskId).currentCount + 1) :
    (markTaskProgress mem u task now).2 = false ∧
    progressOf (markTaskProgress mem u task now).1 u task.taskId =
      { progressOf mem u task.taskId with
          currentCount := (progressOf mem u task.taskId).currentCount + 1
          lastProgressTimestamp := now } ∧
    userPoints (markTaskProgress mem u task now).1 u = userPoints mem u := by
  simp only [markTaskProgress]
  rw [if_neg (by simpa using h)]
  exact ⟨rfl, by rw [progressOf_setProgress_self], rfl⟩

theorem isDaily_same_day (mem : MemState) (u id : String) (now : ℕ)
    (h : getUtcDay now = getUtcDay (progressOf mem u id).lastProgressTimestamp) :
    isDailyTaskCompletedToday mem u id now =
      ((getUserTaskProgress mem u id).1, (progressOf mem u id).isCompletedThisPeriod) := by
  simp only [isDailyTaskCompletedToday]
  rw [getUserTaskProgress_snd, if_pos h]

theorem isDaily_rollover (mem : MemState) (u id : String) (now : ℕ)
    (h : ¬ getUtcDay now = getUtcDay (progressOf mem u id).lastProgressTimestamp) :
    isDailyTaskCompletedToday mem u id now =
      (setProgress (getUserTaskProgress mem u id).1 u id
        { progressOf mem u id with isCompletedThisPeriod := false, currentCount := 0 },
       false) := by
  simp only [isDailyTaskCompletedToday]
  rw [getUserTaskProgress_snd, if_neg h]

theorem markTaskCompleted_nondaily (mem : MemState) (u : String) (task : TaskDefinition)
    (now : ℕ) (hc : ¬ task.cadence = TaskCadence.DAILY) :
    markTaskCompleted mem u task now =
      markTaskProgress (getUserTaskProgress mem u task.taskId).1 u task now := by
  simp only [markTaskCompleted]
  rw [if_neg hc]

theorem markTaskCompleted_daily (mem : MemState) (u : String) (task : TaskDefinition)
    (now : ℕ) (hc : task.cadence = TaskCadence.DAILY) :
    markTaskCompleted mem u task now =
      (if (isDailyTaskCompletedToday (getUserTaskProgress mem u task.taskId).1 u
            task.taskId now).2 = true
       then ((isDailyTaskCompletedToday (getUserTaskProgress mem u task.taskId).1 u
            task.taskId now).1, false)
       else markTaskProgress (isDailyTaskCompletedToday (getUserTaskProgress mem u
            task.taskId).1 u task.taskId now).1 u task now) := by
  simp only [markTaskCompleted]
  rw [if_pos hc]

theorem markTaskProgress_points (mem : MemState) (u : String) (task : TaskDefinition)
    (now : ℕ) :
    userPoints (markTaskProgress mem u task now).1 u =
      userPoints mem u +
        (if (markTaskProgress mem u task now).2 = true then task.pointsReward else 0) := by
  by_cases h : task.targetCount ≤ (progressOf mem u task.taskId).currentCount + 1
  · obtain ⟨h1, _, h3⟩ := markTaskProgress_complete mem u task now h
    rw [h1, h3]
    simp
  · obtain ⟨h1, _, h3⟩ := markTaskProgress_incomplete mem u task now h
    rw [h1, h3]
    simp

theorem markTaskProgress_entry (mem : MemState) (u : String) (task : TaskDefinition)
    (now : ℕ) :
    alistGet task.taskId ((alistGet (toLowerStr u)
        ((markTaskProgress mem u task now).1).userTaskProgressStore).getD [])
      = some (progressOf (markTaskProgress mem u task now).1 u task.taskId) := by
  simp only [markTaskProgress]
  split
  · rw [award_userTaskProgressStore,
      progressOf_congr u task.taskId (award_userTaskProgressStore _ _ _),
      entry_some_setProgress, progressOf_setProgress_self]
  · rw [entry_some_setProgress, progressOf_setProgress_self]

theorem markTaskProgress_true_state (mem : MemState) (u : String) (task : TaskDefinition)
    (now : ℕ) (hb : (markTaskProgress mem u task now).2 = true) :
    (progressOf (markTaskProgress mem u task now).1 u task.taskId).isCompletedThisPeriod = true ∧
    (progressOf (markTaskProgress mem u task now).1 u task.taskId).lastProgressTimestamp = now := by
  by_cases h : task.targetCount ≤ (progressOf mem u task.taskId).currentCount + 1
  · obtain ⟨_, h2, _⟩ := markTaskProgress_complete mem u task now h
    rw [h2]
    exact ⟨rfl, rfl⟩
  · obtain ⟨h1, _, _⟩ := markTaskProgress_incomplete mem u task now h
    rw [h1] at hb
    simp at hb

theorem markTaskCompleted_points (mem : MemState) (u : String) (task : TaskDefinition)
    (now : ℕ) :
    userPoints (markTaskCompleted mem u task now).1 u =
      userPoints mem u +
        (if (markTaskCompleted mem u task now).2 = true then task.pointsReward else 0) := by
  by_cases hc : task.cadence = TaskCadence.DAILY
  · rw [markTaskCompleted_daily mem u task now hc]
    by_cases hg : (isDailyTaskCompletedToday (getUserTaskProgress mem u task.taskId).1 u
        task.taskId now).2 = true
    · rw [if_pos hg]
      simp only [Bool.false_eq_true, if_false]
      by_cases hday : getUtcDay now =
          getUtcDay (progressOf (getUserTaskProgress mem u task.taskId).1 u
            task.taskId).lastProgressTimestamp
      · rw [isDaily_same_day _ u task.taskId now hday]
        rw [getUserTaskProgress_fst_userPoints, getUserTaskProgress_fst_userPoints]
        simp
      · rw [isDaily_rollover _ u task.taskId now hday]
        rw [userPoints_setProgress, getUserTaskProgress_fst_userPoints,
          getUserTaskProgress_fst_userPoints]
        simp
    · rw [if_neg hg]
      rw [markTaskProgress_points]
      by_cases hday : getUtcDay now =
          getUtcDay (progressOf (getUserTaskProgress mem u task.taskId).1 u
            task.taskId).lastProgressTimestamp
      · rw [isDaily_same_day _ u task.taskId now hday]
        rw [getUserTaskProgress_fst_userPoints, getUserTaskProgress_fst_userPoints]
      · rw [isDaily_rollover _ u task.taskId now hday]
        rw [userPoints_setProgress, getUserTaskProgress_fst_userPoints,
          getUserTaskProgress_fst_userPoints]
  · rw [markTaskCompleted_nondaily mem u task now hc, markTaskProgress_points,
      getUserTaskProgress_fst_userPoints]

theorem markTaskCompleted_completed_state (mem : MemState) (u : String)
    (task : TaskDefinition) (now : ℕ)
    (hb : (markTaskCompleted mem u task now).2 = true) :
    (progressOf (markTaskCompleted mem u task now).1 u task.taskId).isCompletedThisPeriod
      = true ∧
    (progressOf (markTaskCompleted mem u task now).1 u task.taskId).lastProgressTimestamp
      = now ∧
    alistGet task.taskId ((alistGet (toLowerStr u)
        ((markTaskCompleted mem u task now).1).userTaskProgressStore).getD [])
      = some (progressOf (markTaskCompleted mem u task now).1 u task.taskId) := by
  by_cases hc : task.cadence = TaskCadence.DAILY
  · rw [markTaskCompleted_daily mem u task now hc] at hb ⊢
    by_cases hg : (isDailyTaskCompletedToday (getUserTaskProgress mem u task.taskId).1 u
        task.taskId now).2 = true
    · rw [if_pos hg] at hb
      simp at hb
    · rw [if_neg hg] at hb ⊢
      obtain ⟨h1, h2⟩ := markTaskProgress_true_state _ u task now hb
      exact ⟨h1, h2, markTaskProgress_entry _ u task now⟩
  · rw [markTaskCompleted_nondaily mem u task now hc] at hb ⊢
    obtain ⟨h1, h2⟩ := markTaskProgress_true_state _ u task now hb
    exact ⟨h1, h2, markTaskProgress_entry _ u task now⟩

theorem markTaskCompleted_blocked (mem : MemState) (u : String) (task : TaskDefinition)
    (now : ℕ) (hc : task.cadence = TaskCadence.DAILY)
    (hsome : alistGet task.taskId ((alistGet (toLowerStr u) mem.userTaskProgressStore).getD [])
      = some (progressOf mem u task.taskId))
    (hday : getUtcDay now = getUtcDay (progressOf mem u task.taskId).lastProgressTimestamp)
    (hcomp : (progressOf mem u task.taskId).isCompletedThisPeriod = true) :
    markTaskCompleted mem u task now = (mem, false) := by
  have hg := getUserTaskProgress_fst_of_some hsome
  rw [markTaskCompleted_daily mem u task now hc, hg]
  simp only []
  rw [isDaily_same_day mem u task.taskId now hday, hg, hcomp]
  simp

/-! ## C10: non-daily tasks re-award on every action past the target -/

/-- C10: for a task whose cadence is not `DAILY` the completed-this-period
guard is never applied: whenever the next increment reaches or stays at or
beyond `targetCount`, each further qualifying action increments
`currentCount` (past the target) and awards `pointsReward` again — the
completion never becomes idempotent. -/
theorem nondaily_task_reawards (mem : MemState) (u : String) (task : TaskDefinition)
    (now : ℕ) (hc : ¬ task.cadence = TaskCadence.DAILY)
    (h : task.targetCount ≤ (progressOf mem u task.taskId).currentCount + 1) :
    (markTaskCompleted mem u task now).2 = true ∧
    (progressOf (markTaskCompleted mem u task now).1 u task.taskId).currentCount =
      (progressOf mem u task.taskId).currentCount + 1 ∧
    userPoints (markTaskCompleted mem u task now).1 u = userPoints mem u + task.pointsReward := by
  rw [markTaskCompleted_nondaily mem u task now hc]
  have hp := getUserTaskProgress_fst_progressOf mem u task.taskId
  obtain ⟨h1, h2, h3⟩ := markTaskProgress_complete ((getUserTaskProgress mem u task.taskId).1)
    u task now (by rw [hp]; exact h)
  refine ⟨h1, ?_, ?_⟩
  · rw [h2, hp]
  · rw [h3, getUserTaskProgress_fst_userPoints]

/-- Witness for C10: the weekly task is already completed (count 2 of 2);
a further action bumps the count to 3 and pays the 50 points again. -/
theorem nondaily_task_reawards_witness :
    (¬ sampleWeeklyTask.cadence = TaskCadence.DAILY) ∧
    (sampleWeeklyTask.targetCount ≤
      (progressOf memWeekly "0xRaterA" sampleWeeklyTask.taskId).currentCount + 1) ∧
    ((markTaskCompleted memWeekly "0xRaterA" sampleWeeklyTask 900).2 = true ∧
     (progressOf (markTaskCompleted memWeekly "0xRaterA" sampleWeeklyTask 900).1 "0xRaterA"
        sampleWeeklyTask.taskId).currentCount =
       (progressOf memWeekly "0xRaterA" sampleWeeklyTask.taskId).currentCount + 1 ∧
     userPoints (markTaskCompleted memWeekly "0xRaterA" sampleWeeklyTask 900).1 "0xRaterA" =
       userPoints memWeekly "0xRaterA" + sampleWeeklyTask.pointsReward) :=
  ⟨by decide, by decide,
   nondaily_task_reawards memWeekly "0xRaterA" sampleWeeklyTask 900 (by decide) (by decide)⟩

/-! ## C6: daily task idempotence within one UTC day -/

/-- C6: two invocations of the same daily-cadence task in the same UTC
calendar day complete the task and award `pointsReward` at most once: the
two completion flags cannot both be true, a completion makes the second
invocation an exact no-op, the user gains at most one `pointsReward`, and
in the `targetCount = 1` fresh-day scenario the entry ends at
`currentCount = 1`, `isCompletedThisPeriod = true` with the points awarded
exactly once. -/
theorem daily_task_double_invoke_idempotent (mem : MemState) (u : String)
    (task : TaskDefinition) (now1 now2 : ℕ)
    (hc : task.cadence = TaskCadence.DAILY)
    (hd : getUtcDay now1 = getUtcDay now2) :
    ¬ ((markTaskCompleted mem u task now1).2 = true ∧
       (markTaskCompleted (markTaskCompleted mem u task now1).1 u task now2).2 = true) ∧
    ((markTaskCompleted mem u task now1).2 = true →
      markTaskCompleted (markTaskCompleted mem u task now1).1 u task now2 =
        ((markTaskCompleted mem u task now1).1, false)) ∧
    userPoints (markTaskCompleted (markTaskCompleted mem u task now1).1 u task now2).1 u =
      userPoints mem u +
        (if (markTaskCompleted mem u task now1).2 = true ∨
            (markTaskCompleted (markTaskCompleted mem u task now1).1 u task now2).2 = true
         then task.pointsReward else 0) ∧
    (task.targetCount = 1 →
      ¬ getUtcDay now1 = getUtcDay (progressOf mem u task.taskId).lastProgressTimestamp →
      (progressOf (markTaskCompleted (markTaskCompleted mem u task now1).1 u task now2).1 u
          task.taskId =
        { progressOf mem u task.taskId with
            currentCount := 1, lastProgressTimestamp := now1, isCompletedThisPeriod := true } ∧
       (markTaskCompleted mem u task now1).2 = true ∧
       (markTaskCompleted (markTaskCompleted mem u task now1).1 u task now2).2 = false)) := by
  have hblock : (markTaskCompleted mem u task now1).2 = true →
      markTaskCompleted (markTaskCompleted mem u task now1).1 u task now2 =
        ((markTaskCompleted mem u task now1).1, false) := by
    intro hb
    obtain ⟨hcomp, hts, hsome⟩ := markTaskCompleted_completed_state mem u task now1 hb
    exact markTaskCompleted_blocked _ u task now2 hc hsome
      (by rw [hts]; exact hd.symm) hcomp
  have hp1 := markTaskCompleted_points mem u task now1
  have hp2 := markTaskCompleted_points ((markTaskCompleted mem u task now1).1) u task now2
  refine ⟨?_, hblock, ?_, ?_⟩
  · rintro ⟨hb1, hb2⟩
    rw [hblock hb1] at hb2
    simp at hb2
  · by_cases hb1 : (markTaskCompleted mem u task now1).2 = true
    · rw [hblock hb1]
      simp only []
      rw [hp1, hb1]
      simp
    · by_cases hb2 : (markTaskCompleted (markTaskCompleted mem u task now1).1 u task
          now2).2 = true
      · rw [hp2, hp1, hb2]
        simp [hb1]
      · rw [hp2, hp1]
        simp [hb1, hb2]
  · intro ht1 hfresh
    -- first invocation: fresh day, so the guard resets and the task completes
    have hpO := getUserTaskProgress_fst_progressOf mem u task.taskId
    have hroll := isDaily_rollover ((getUserTaskProgress mem u task.taskId).1) u task.taskId
      now1 (by rw [hpO]; exact hfresh)
    have hmark1 : markTaskCompleted mem u task now1 =
        markTaskProgress (setProgress ((getUserTaskProgress
            ((getUserTaskProgress mem u task.taskId).1) u task.taskId).1) u task.taskId
          { progressOf mem u task.taskId with
              isCompletedThisPeriod := false, currentCount := 0 }) u task now1 := by
      rw [markTaskCompleted_daily mem u task now1 hc, hroll, hpO]
      simp
    have hreset : progressOf (setProgress ((getUserTaskProgress
        ((getUserTaskProgress mem u task.taskId).1) u task.taskId).1) u task.taskId
          { progressOf mem u task.taskId with
              isCompletedThisPeriod := false, currentCount := 0 }) u task.taskId =
        { progressOf mem u task.taskId with
            isCompletedThisPeriod := false, currentCount := 0 } :=
      progressOf_setProgress_self _ u task.taskId _
    obtain ⟨hb1, hprog1, _⟩ := markTaskProgress_complete _ u task now1
      (by rw [hreset]; simp [ht1])
    rw [← hmark1] at hb1 hprog1
    rw [hreset] at hprog1
    have hr2 := hblock hb1
    refine ⟨?_, hb1, by rw [hr2]⟩
    rw [hr2]
    simp only []
    rw [hprog1]

/-- Witness for C6: daily-login task with `targetCount = 1`, two logins at
the same UTC instant of a fresh day complete the task once, leave
`currentCount` at 1 and `isCompletedThisPeriod` true. -/
theorem daily_task_double_invoke_idempotent_witness :
    sampleLoginTask.cadence = TaskCadence.DAILY ∧
    getUtcDay 100000000123 = getUtcDay 100000000123 ∧
    sampleLoginTask.targetCount = 1 ∧
    ¬ getUtcDay 100000000123 =
        getUtcDay (progressOf emptyMem "0xRaterA" sampleLoginTask.taskId).lastProgressTimestamp ∧
    (progressOf (markTaskCompleted (markTaskCompleted emptyMem "0xRaterA" sampleLoginTask
        100000000123).1 "0xRaterA" sampleLoginTask 100000000123).1 "0xRaterA"
        sampleLoginTask.taskId =
      { progressOf emptyMem "0xRaterA" sampleLoginTask.taskId with
          currentCount := 1, lastProgressTimestamp := 100000000123
          isCompletedThisPeriod := true } ∧
     (markTaskCompleted emptyMem "0xRaterA" sampleLoginTask 100000000123).2 = true ∧
     (markTaskCompleted (markTaskCompleted emptyMem "0xRaterA" sampleLoginTask
        100000000123).1 "0xRaterA" sampleLoginTask 100000000123).2 = false) :=
  ⟨by decide, rfl, by decide, by decide,
   (daily_task_double_invoke_idempotent emptyMem "0xRaterA" sampleLoginTask
      100000000123 100000000123 (by decide) rfl).2.2.2 (by decide) (by decide)⟩

/-! ## C7: the streak bonus is paid on every qualifying text review -/

theorem updateStreak_points (p : UserProfile) (now : ℕ) :
    (updateStreak p now).points = p.points := by
  simp only [updateStreak]
  split_ifs <;> rfl

theorem updateStreak_first (p : UserProfile) (now : ℕ)
    (h : p.lastReviewTimestamp = 0) : (updateStreak p now).reviewStreak = 1 := by
  unfold updateStreak
  by_cases h2 : daysDifference p.lastReviewTimestamp now = 0
  · simp [h, h2]
  · simp [h, h2]

theorem userStreak_inPlaceProfileWrite (mem : MemState) (u : String) (p : UserProfile) :
    userStreak (inPlaceProfileWrite mem u p) u = p.reviewStreak := by
  unfold userStreak
  rw [profileAt_inPlaceProfileWrite]
  rfl

/-- C7: on every qualifying text-review event, after the streak update the
user's points increase by `streak * POINTS_STREAK_BONUS_PER_DAY` whenever
the resulting streak is positive — on top of whatever the task loops paid
— and this includes same-day repeats; the resulting profile carries
exactly that streak, and a first-ever review (`lastReviewTimestamp = 0`)
yields streak 1 (hence a bonus of `1 * POINTS_STREAK_BONUS_PER_DAY`). -/
theorem streak_bonus_points_awarded (mem : MemState) (u : String) (now : ℕ) :
    userPoints (processReviewAndRatingTasks mem u true now) u =
      userPoints (getOrCreateUserProfile (runReviewTaskLoops mem u now) u).1 u +
        (if 0 < (updateStreak (getOrCreateUserProfile (runReviewTaskLoops mem u now) u).2
            now).reviewStreak
         then ((updateStreak (getOrCreateUserProfile (runReviewTaskLoops mem u now) u).2
            now).reviewStreak : ℤ) * POINTS_STREAK_BONUS_PER_DAY
         else 0) ∧
    userStreak (processReviewAndRatingTasks mem u true now) u =
      (updateStreak (getOrCreateUserProfile (runReviewTaskLoops mem u now) u).2
        now).reviewStreak ∧
    (((getOrCreateUserProfile (runReviewTaskLoops mem u now) u).2).lastReviewTimestamp = 0 →
      (updateStreak (getOrCreateUserProfile (runReviewTaskLoops mem u now) u).2
        now).reviewStreak = 1) := by
  have hrl : runDailyTasksOfType (runDailyTasksOfType mem u TaskType.DAILY_RATE_ANY_DAPP now)
      u TaskType.DAILY_REVIEW_ANY_DAPP now = runReviewTaskLoops mem u now := rfl
  simp only [processReviewAndRatingTasks, eq_self_iff_true, if_true]
  rw [hrl]
  refine ⟨?_, ?_, fun h => updateStreak_first _ now h⟩
  · rw [userPoints_writeProfileBack]
    have hpts : ({ (getOrCreateUserProfile (if 0 <
        (updateStreak (getOrCreateUserProfile (runReviewTaskLoops mem u now) u).2
          now).reviewStreak then
        awardPointsAndNotify (inPlaceProfileWrite
          (getOrCreateUserProfile (runReviewTaskLoops mem u now) u).1 u
          (updateStreak (getOrCreateUserProfile (runReviewTaskLoops mem u now) u).2 now)) u
          (((updateStreak (getOrCreateUserProfile (runReviewTaskLoops mem u now) u).2
            now).reviewStreak : ℤ) * POINTS_STREAK_BONUS_PER_DAY)
      else
        inPlaceProfileWrite (getOrCreateUserProfile (runReviewTaskLoops mem u now) u).1 u
          (updateStreak (getOrCreateUserProfile (runReviewTaskLoops mem u now) u).2 now))
      u).2 with lastReviewTimestamp := now } : UserProfile).points =
      ((getOrCreateUserProfile (if 0 <
        (updateStreak (getOrCreateUserProfile (runReviewTaskLoops mem u now) u).2
          now).reviewStreak then
        awardPointsAndNotify (inPlaceProfileWrite
          (getOrCreateUserProfile (runReviewTaskLoops mem u now) u).1 u
          (updateStreak (getOrCreateUserProfile (runReviewTaskLoops mem u now) u).2 now)) u
          (((updateStreak (getOrCreateUserProfile (runReviewTaskLoops mem u now) u).2
            now).reviewStreak : ℤ) * POINTS_STREAK_BONUS_PER_DAY)
      else
        inPlaceProfileWrite (getOrCreateUserProfile (runReviewTaskLoops mem u now) u).1 u
          (updateStreak (getOrCreateUserProfile (runReviewTaskLoops mem u now) u).2 now))
      u).2).points := rfl
    rw [hpts, getOrCreate_points]
    by_cases hs : 0 < (updateStreak (getOrCreateUserProfile (runReviewTaskLoops mem u now)
        u).2 now).reviewStreak
    · rw [if_pos hs, if_pos hs, award_userPoints, userPoints_inPlaceProfileWrite,
        updateStreak_points, getOrCreate_points, getOrCreate_fst_userPoints]
    · rw [if_neg hs, if_neg hs, userPoints_inPlaceProfileWrite,
        updateStreak_points, getOrCreate_points, getOrCreate_fst_userPoints]
      simp
  · rw [userStreak_writeProfileBack]
    have hstr : ∀ (q : UserProfile), ({ q with lastReviewTimestamp := now } :
        UserProfile).reviewStreak = q.reviewStreak := fun q => rfl
    rw [hstr, getOrCreate_streak]
    by_cases hs : 0 < (updateStreak (getOrCreateUserProfile (runReviewTaskLoops mem u now)
        u).2 now).reviewStreak
    · rw [if_pos hs, award_userStreak, userStreak_inPlaceProfileWrite]
    · rw [if_neg hs, userStreak_inPlaceProfileWrite]

/-- Witness for C7: a first-ever text review yields streak 1 (and hence a
bonus of `1 * POINTS_STREAK_BONUS_PER_DAY` by the main theorem). -/
theorem streak_bonus_points_awarded_witness :
    (((getOrCreateUserProfile (runReviewTaskLoops emptyMem "0xRaterA" 100000000123)
        "0xRaterA").2).lastReviewTimestamp = 0) ∧
    (updateStreak (getOrCreateUserProfile (runReviewTaskLoops emptyMem "0xRaterA"
        100000000123) "0xRaterA").2 100000000123).reviewStreak = 1 :=
  ⟨by decide,
   (streak_bonus_points_awarded emptyMem "0xRaterA" 100000000123).2.2 (by decide)⟩

/-! ## C8: bulk load is independent of prior cache state -/

theorem alistAppend_getD {α : Type} (k k2 : String) (v : α)
    (l : List (String × List α)) :
    (alistGet k (alistAppend k2 v l)).getD [] =
      if k2 = k then (alistGet k l).getD [] ++ [v] else (alistGet k l).getD [] := by
  induction l with
  | nil =>
    by_cases h : k2 = k
    · simp [alistAppend, alistGet, h]
    · simp [alistAppend, alistGet, h]
  | cons hd tl ih =>
    obtain ⟨k3, vs⟩ := hd
    simp only [alistAppend]
    by_cases h3 : k3 = k2
    · subst h3
      by_cases hk : k3 = k
      · subst hk
        simp [alistGet]
      · simp [alistGet, hk]
    · by_cases hk : k3 = k
      · subst hk
        have h2 : ¬ k2 = k3 := fun h => h3 h.symm
        simp [alistGet, h3, h2]
      · simp [alistGet, h3, hk, ih]

theorem loadFold_getD (m : List (String × SDKDappRegistered)) (rows : List ReviewRow)
    (k : String) : ∀ acc : List (String × List DappReview),
    (alistGet k (rows.foldl (fun acc row => alistAppend (toLowerStr row.dappId)
        (rowToReview m row) acc) acc)).getD [] =
      (alistGet k acc).getD [] ++
        (rows.filter (fun row => toLowerStr row.dappId == k)).map (rowToReview m) := by
  induction rows with
  | nil => intro acc; simp
  | cons row rows ih =>
    intro acc
    simp only [List.foldl_cons, List.filter_cons]
    rw [ih]
    rw [alistAppend_getD]
    by_cases h : toLowerStr row.dappId = k
    · simp [h]
    · simp [h]

theorem loadReviewsByDapp_getD (m : List (String × SDKDappRegistered))
    (rows : List ReviewRow) (k : String) :
    (alistGet k (loadReviewsByDapp m rows)).getD [] =
      (rows.filter (fun row => toLowerStr row.dappId == k)).map (rowToReview m) := by
  unfold loadReviewsByDapp
  rw [loadFold_getD]
  simp

theorem filter_map_rowToReview (m : List (String × SDKDappRegistered)) (k : String)
    (rows : List ReviewRow) :
    (rows.map (rowToReview m)).filter (fun r => r.dappId == k) =
      (rows.filter (fun row => toLowerStr row.dappId == k)).map (rowToReview m) := by
  induction rows with
  | nil => rfl
  | cons row rows ih =>
    simp only [List.map_cons, List.filter_cons]
    cases hb : (toLowerStr row.dappId == k) with
    | true =>
      have : ((rowToReview m row).dappId == k) = true := hb
      rw [this]
      simp [ih]
    | false =>
      have : ((rowToReview m row).dappId == k) = false := hb
      rw [this]
      simp [ih]

/-- C8: the startup bulk load replaces the dApp/review stores with data
computed purely from the loaded SDK shells and SQLite rows — identical for
any two prior in-memory states — and every listed dApp carries aggregates
computed from exactly its own slice of the loaded review set. -/
theorem bulk_load_aggregates_pure (sdkDapps : List SDKDappRegistered)
    (rows : List ReviewRow) (mem mem2 : MemState) :
    (fetchInitialDataFromDb sdkDapps rows mem).dappsStore =
      (fetchInitialDataFromDb sdkDapps rows mem2).dappsStore ∧
    (fetchInitialDataFromDb sdkDapps rows mem).allReviewsStore =
      (fetchInitialDataFromDb sdkDapps rows mem2).allReviewsStore ∧
    (fetchInitialDataFromDb sdkDapps rows mem).reviewsByDappStore =
      (fetchInitialDataFromDb sdkDapps rows mem2).reviewsByDappStore ∧
    ∀ d ∈ (fetchInitialDataFromDb sdkDapps rows mem).dappsStore,
      d.totalReviews = ((fetchInitialDataFromDb sdkDapps rows mem).allReviewsStore.filter
        (fun r => r.dappId == d.dappId)).length ∧
      d.averageRating = (calculateDappAggregates
        ((fetchInitialDataFromDb sdkDapps rows mem).allReviewsStore.filter
          (fun r => r.dappId == d.dappId))).2 := by
  refine ⟨rfl, rfl, rfl, ?_⟩
  intro d hd
  simp only [fetchInitialDataFromDb] at hd ⊢
  obtain ⟨shell, hshell, hd⟩ := List.mem_map.mp hd
  subst hd
  have hbucket : (alistGet (toLowerStr shell.dappId)
      (loadReviewsByDapp (buildDappInfoMap sdkDapps) rows)).getD [] =
      (rows.map (rowToReview (buildDappInfoMap sdkDapps))).filter
        (fun r => r.dappId == toLowerStr shell.dappId) := by
    rw [loadReviewsByDapp_getD, filter_map_rowToReview]
  constructor
  · show (calculateDappAggregates ((alistGet (toLowerStr shell.dappId)
        (loadReviewsByDapp (buildDappInfoMap sdkDapps) rows)).getD [])).1 = _
    rw [hbucket]
    rfl
  · show (calculateDappAggregates ((alistGet (toLowerStr shell.dappId)
        (loadReviewsByDapp (buildDappInfoMap sdkDapps) rows)).getD [])).2 = _
    rw [hbucket]

/-- Witness for C8 on one shell and two rows (one row with a mixed-case
dApp id), loaded over two different prior states. -/
theorem bulk_load_aggregates_pure_witness :
    ((fetchInitialDataFromDb [sampleShell] [sampleRow1, sampleRow2]
        emptyMem).dappsStore.getD 0 default) ∈
      (fetchInitialDataFromDb [sampleShell] [sampleRow1, sampleRow2] emptyMem).dappsStore ∧
    (((fetchInitialDataFromDb [sampleShell] [sampleRow1, sampleRow2]
        emptyMem).dappsStore.getD 0 default).totalReviews =
        ((fetchInitialDataFromDb [sampleShell] [sampleRow1, sampleRow2]
          emptyMem).allReviewsStore.filter (fun r => r.dappId ==
            ((fetchInitialDataFromDb [sampleShell] [sampleRow1, sampleRow2]
              emptyMem).dappsStore.getD 0 default).dappId)).length ∧
      ((fetchInitialDataFromDb [sampleShell] [sampleRow1, sampleRow2]
        emptyMem).dappsStore.getD 0 default).averageRating =
        (calculateDappAggregates ((fetchInitialDataFromDb [sampleShell]
          [sampleRow1, sampleRow2] emptyMem).allReviewsStore.filter (fun r => r.dappId ==
            ((fetchInitialDataFromDb [sampleShell] [sampleRow1, sampleRow2]
              emptyMem).dappsStore.getD 0 default).dappId))).2) := by
  have hmem : ((fetchInitialDataFromDb [sampleShell] [sampleRow1, sampleRow2]
      emptyMem).dappsStore.getD 0 default) ∈
        (fetchInitialDataFromDb [sampleShell] [sampleRow1, sampleRow2] emptyMem).dappsStore := by
    simp [fetchInitialDataFromDb]
  exact ⟨hmem, (bulk_load_aggregates_pure [sampleShell] [sampleRow1, sampleRow2] emptyMem
    memWithTx1).2.2.2 _ hmem⟩
